import Mathlib

namespace PetSounds

/-! Shallow embedding of the pet-sounds decoder (pet.go).

The HCL parser, the gohcl reflection-driven body decoder and the cty
function machinery are external libraries; the fragments of their
behaviour that pet.go exercises are embedded explicitly.  The typed
second pass of ReadConfig (the type switch over generic pet blocks) and
createContext are embedded in full. -/

/-- Constant environmentKey from the source: the namespace under which
selected environment variables are exposed. -/
def environmentKey : String := "env"

/-- Constant envVarPrefix from the source: the marker PS_ that selects
environment variables for the env namespace. -/
def envVarPref : String := "PS_"

/-- Constant defaultCatSound from the source. -/
def defaultCatSound : String := "meow"

/-- Constant defaultDogBreed from the source. -/
def defaultDogBreed : String := "mutt"

/-- Leading-segment test on character lists (models strings.HasPrefix). -/
def isPreOf : List Char → List Char → Bool
  | [], _ => true
  | _ :: _, [] => false
  | a :: as, b :: bs => a == b && isPreOf as bs

/-- Models strings.HasPrefix on strings. -/
def goHasPre (pre s : String) : Bool := isPreOf pre.data s.data

/-- Models strings.TrimPrefix on strings. -/
def goTrimPre (pre s : String) : String :=
  if goHasPre pre s then String.mk (s.data.drop pre.data.length) else s

/-- Models strings.SplitN(e, sep, 2) with sep the equals sign: splits at the
first separator; none when the separator does not occur, in which case SplitN
yields a single part and the caller skips the entry. -/
def splitEqAt : List Char → Option (List Char × List Char)
  | [] => none
  | c :: rest =>
    if c = '=' then some ([], rest)
    else
      match splitEqAt rest with
      | none => none
      | some (a, b) => some (c :: a, b)

/-- Go map assignment on an association list: the previous binding for the
key, if any, is replaced (last write wins). -/
def mapSet (m : List (String × String)) (k v : String) : List (String × String) :=
  m.filter (fun p => p.1 != k) ++ [(k, v)]

/-- One iteration of the environment scan in createContext (lines 186-202 of
pet.go): split the entry at the first equals sign, skip it unless the key
carries the PS_ marker, otherwise strip the marker and store the value. -/
def envStep (acc : List (String × String)) (e : String) : List (String × String) :=
  match splitEqAt e.data with
  | none => acc
  | some (k, v) =>
    if goHasPre envVarPref (String.mk k) then
      mapSet acc (goTrimPre envVarPref (String.mk k)) (String.mk v)
    else acc

/-- The nested variable map built by createContext from an environment
snapshot; os.Environ() is modelled as a list of KEY=VALUE entries. -/
def envVarsOf (environ : List String) : List (String × String) :=
  environ.foldl envStep []

/-- The variables of an hcl.EvalContext: namespace name to nested map of
attribute name to string value.  The function registry of the context is the
fixed singleton map containing random; it is represented directly in
evalExpr rather than as data. -/
structure EvalContext where
  Variables : List (String × List (String × String))
deriving DecidableEq

/-- Function createContext from the source.  In the source it returns a pair
of context and error with the error always nil; it is total here. -/
def createContext (environ : List String) : EvalContext :=
  { Variables := [(environmentKey, envVarsOf environ)] }

/-- Failures surfaced while evaluating an attribute expression. -/
inductive EvalError where
  | unknownVariable (ns : String)
  | unsupportedAttr (ns attr : String)
  | unknownFunction (fname : String)
  | arityError (minArgs : Nat)
  | panicIntn
deriving DecidableEq

/-- Models rand.Intn: panics when the bound is zero (surfaced as an error
because the cty function machinery recovers panics from implementations),
otherwise returns an index below the bound.  The process-wide random source
is abstracted as the oracle r. -/
def randIntn (r n : Nat) : Except EvalError Nat :=
  if n = 0 then .error .panicIntn else .ok (r % n)

/-- The Impl of the random function registered by createContext (lines
226-229 of pet.go): pick args at a random index. -/
def randomImpl (r : Nat) (args : List String) : Except EvalError String :=
  match randIntn r args.length with
  | .error e => .error e
  | .ok i => .ok (args.getD i "")

/-- A call to the random function through the cty function machinery: the
declared signature has no required positional parameters (Params is the empty
list) and a string VarParam, so the arity check, which rejects fewer given
arguments than required parameters, never fails; the Impl then runs and any
panic in it surfaces as an error. -/
def randomCall (r : Nat) (args : List String) : Except EvalError String :=
  if args.length < 0 then .error (.arityError 0) else randomImpl r args

/-- Fragment of the external HCL expression language used by pet
configurations: string literals and references to attributes of the env
object. -/
inductive BaseExpr where
  | lit (s : String)
  | envRef (attr : String)
deriving DecidableEq

/-- An attribute expression: a base expression, or one function call whose
arguments are base expressions. -/
inductive Expr where
  | base (b : BaseExpr)
  | call (fname : String) (args : List BaseExpr)
deriving DecidableEq

/-- Evaluation of a base expression: a literal is itself; a reference to an
attribute of the env object looks the namespace up among the context
variables and then the attribute inside it. -/
def evalBase (ctx : EvalContext) : BaseExpr → Except EvalError String
  | .lit s => .ok s
  | .envRef attr =>
    match List.lookup environmentKey ctx.Variables with
    | none => .error (.unknownVariable environmentKey)
    | some obj =>
      match List.lookup attr obj with
      | none => .error (.unsupportedAttr environmentKey attr)
      | some v => .ok v

/-- Evaluation of the arguments of a call, left to right, first error
propagated. -/
def evalBaseList (ctx : EvalContext) : List BaseExpr → Except EvalError (List String)
  | [] => .ok []
  | e :: es =>
    match evalBase ctx e with
    | .error err => .error err
    | .ok v =>
      match evalBaseList ctx es with
      | .error err => .error err
      | .ok vs => .ok (v :: vs)

/-- Expression evaluation against the context; the only registered function
is random. -/
def evalExpr (ctx : EvalContext) (r : Nat) : Expr → Except EvalError String
  | .base b => evalBase ctx b
  | .call fname args =>
    match evalBaseList ctx args with
    | .error err => .error err
    | .ok vs =>
      if fname = "random" then randomCall r vs
      else .error (.unknownFunction fname)

/-- The deferred characteristics body (the hcl.Body captured by the remain
tag): named attribute expressions. -/
structure Body where
  attrs : List (String × Expr)
deriving DecidableEq

/-- First attribute of the body with the given name (HCL bodies cannot repeat
an attribute name). -/
def lookupAttr (body : Body) (fname : String) : Option Expr :=
  (body.attrs.find? (fun a => a.1 == fname)).map (fun a => a.2)

/-- Failures of the decoding pipeline of ReadConfig. -/
inductive DecodeError where
  | parseErr (msg : String)
  | unknownField (fname : String)
  | evalErr (e : EvalError)
  | unknownPetType (t : String)
deriving DecidableEq

/-- The gohcl body decoder rejects attributes that the target struct does not
declare (an Unsupported argument diagnostic): schemas are closed. -/
def checkNoUnknown (declared : List String) (body : Body) : Except DecodeError Unit :=
  match body.attrs.find? (fun a => !(declared.contains a.1)) with
  | some a => .error (.unknownField a.1)
  | none => .ok ()

/-- The gohcl decoding of a characteristics body into a struct declaring a
single optional string field (Cat.Sound or Dog.Breed): undeclared attributes
are rejected, a present attribute is evaluated against the context, an absent
optional attribute leaves the current (zero) field value in place. -/
def decodeBodyOneField (fieldName : String) (ctx : EvalContext) (r : Nat)
    (body : Body) (current : String) : Except DecodeError String :=
  match checkNoUnknown [fieldName] body with
  | .error e => .error e
  | .ok _ =>
    match lookupAttr body fieldName with
    | none => .ok current
    | some e =>
      match evalExpr ctx r e with
      | .error err => .error (.evalErr err)
      | .ok v => .ok v

/-- The optional characteristics block of a pet block: a nil block is skipped
entirely (the current field value is kept), otherwise its body is decoded. -/
def decodeCharacteristics (fieldName : String) (ctx : EvalContext) (r : Nat)
    (chars : Option Body) (current : String) : Except DecodeError String :=
  match chars with
  | none => .ok current
  | some body => decodeBodyOneField fieldName ctx r body current

/-- Struct Cat from the source: Name and the optional Sound field. -/
structure Cat where
  name : String
  sound : String
deriving DecidableEq

/-- Struct Dog from the source: Name and the optional Breed field. -/
structure Dog where
  name : String
  breed : String
deriving DecidableEq

/-- A decoded record: the Pet interface realised as the closed sum of the two
registered variants. -/
inductive Pet where
  | cat (c : Cat)
  | dog (d : Dog)
deriving DecidableEq

/-- One entry of PetsHCL.PetHCLBodies after the generic first pass: the block
label, the Type attribute (petType here because type is reserved), and the
optional characteristics body. -/
structure PetHCLBody where
  name : String
  petType : String
  characteristicsHCL : Option Body
deriving DecidableEq

/-- One iteration of the type-switch loop of ReadConfig (lines 141-175 of
pet.go): dispatch on the type, decode the characteristics into the variant
record starting from the zero value of the optional field, then back-fill the
default when the optional field still equals the empty string. -/
def decodePetBlock (ctx : EvalContext) (r : Nat) (p : PetHCLBody) : Except DecodeError Pet :=
  if p.petType = "cat" then
    match decodeCharacteristics "sound" ctx r p.characteristicsHCL "" with
    | .error e => .error e
    | .ok sound =>
      .ok (.cat { name := p.name, sound := if sound = "" then defaultCatSound else sound })
  else if p.petType = "dog" then
    match decodeCharacteristics "breed" ctx r p.characteristicsHCL "" with
    | .error e => .error e
    | .ok breed =>
      .ok (.dog { name := p.name, breed := if breed = "" then defaultDogBreed else breed })
  else .error (.unknownPetType p.petType)

/-- The decoding loop of ReadConfig: blocks in document order; on the first
failing block the accumulated records are discarded and the empty slice is
returned together with the error, mirroring the early returns of the loop. -/
def decodePets (ctx : EvalContext) (r : Nat) : List PetHCLBody → List Pet × Option DecodeError
  | [] => ([], none)
  | p :: rest =>
    match decodePetBlock ctx r p with
    | .error e => ([], some e)
    | .ok pet =>
      match decodePets ctx r rest with
      | (pets, none) => (pet :: pets, none)
      | (_, some e) => ([], some e)

/-- ReadConfig with its external stages abstracted: opening the file, reading
it, HCL parsing and the generic first pass are performed by external
collaborators and are represented by the parsed argument (an error there is
any of the early returns before the typed loop, each of which also returns
the empty slice); context construction and the typed second pass are
embedded in full. -/
def ReadConfig (parsed : Except String (List PetHCLBody)) (environ : List String)
    (r : Nat) : List Pet × Option DecodeError :=
  match parsed with
  | .error m => ([], some (.parseErr m))
  | .ok blocks => decodePets (createContext environ) r blocks

/-- Error message formatting: the unknownPetType case reproduces the
fmt.Errorf format string of line 173 of pet.go exactly; the other cases
abbreviate the wrapped diagnostics, which no claim inspects. -/
def errorMessage : DecodeError → String
  | .parseErr m => "error in ReadConfig parsing HCL: " ++ m
  | .unknownField f => "Unsupported argument; An argument named \"" ++ f ++ "\" is not expected here."
  | .evalErr _ => "error in ReadConfig decoding HCL configuration"
  | .unknownPetType t => "error in ReadConfig: unknown pet type `" ++ t ++ "`"

/-- Contiguous-sublist containment of character lists. -/
def subListOf (needle : List Char) : List Char → Bool
  | [] => needle.isEmpty
  | c :: rest => isPreOf needle (c :: rest) || subListOf needle rest

/-- Substring test, used to state which names an error message mentions. -/
def strContains (needle hay : String) : Bool := subListOf needle.data hay.data

/-- The label carried by a decoded record. -/
def Pet.petName : Pet → String
  | .cat c => c.name
  | .dog d => d.name

/-- The discriminator value of the variant a decoded record belongs to. -/
def Pet.typeName : Pet → String
  | .cat _ => "cat"
  | .dog _ => "dog"

/-- Boolean success observer for Except. -/
def isOkB {ε α : Type} : Except ε α → Bool
  | .ok _ => true
  | .error _ => false

/-- A characteristics block is well formed for the schema with the single
optional field fieldName when every attribute is that field and its
expression, when present, evaluates. -/
def bodyOkB (fieldName : String) (ctx : EvalContext) (r : Nat) : Option Body → Bool
  | none => true
  | some body =>
    body.attrs.all (fun a => a.1 == fieldName) &&
    (match lookupAttr body fieldName with
     | none => true
     | some e => isOkB (evalExpr ctx r e))

/-- A pet block is well formed when its discriminator is registered and its
characteristics block is well formed for the matching schema. -/
def blockWellFormed (ctx : EvalContext) (r : Nat) (p : PetHCLBody) : Bool :=
  if p.petType = "cat" then bodyOkB "sound" ctx r p.characteristicsHCL
  else if p.petType = "dog" then bodyOkB "breed" ctx r p.characteristicsHCL
  else false

/-- The contribution of one environment entry to the env namespace: the
stripped key and the value, when the key carries the PS_ marker. -/
def contribOf (e : String) : Option (String × String) :=
  match splitEqAt e.data with
  | none => none
  | some (k, v) =>
    if goHasPre envVarPref (String.mk k) then
      some (goTrimPre envVarPref (String.mk k), String.mk v)
    else none

/-- The value of the last contribution for a key, in snapshot order. -/
def lastContribution (k : String) : List (String × String) → Option String
  | [] => none
  | kv :: rest =>
    match lastContribution k rest with
    | some v => some v
    | none => if kv.1 == k then some kv.2 else none

deriving instance DecidableEq for Except

/-- Any error produced inside the decoding loop discards the accumulated
records: the loop returns the empty slice next to the error. -/
theorem decodePets_error_empty (ctx : EvalContext) (r : Nat) :
    ∀ (blocks : List PetHCLBody) (pets : List Pet) (e : DecodeError),
      decodePets ctx r blocks = (pets, some e) → pets = [] := by
  intro blocks
  induction blocks with
  | nil => intro pets e h; simp [decodePets] at h
  | cons p rest ih =>
    intro pets e h
    unfold decodePets at h
    cases hp : decodePetBlock ctx r p with
    | error e2 =>
      rw [hp] at h
      simp only [Prod.mk.injEq] at h
      exact h.1.symm
    | ok pet =>
      rw [hp] at h
      cases hr : decodePets ctx r rest with
      | mk pets2 o =>
        cases o with
        | none => rw [hr] at h; simp at h
        | some e2 =>
          rw [hr] at h
          simp only [Prod.mk.injEq] at h
          exact h.1.symm

/-- C2: whenever any stage of ReadConfig fails (parse or first pass,
represented by the parsed argument, or the typed second pass including the
unknown-variant check), the returned record slice is empty: no partial prefix
of successfully decoded blocks ever escapes. -/
theorem decode_error_returns_no_records (parsed : Except String (List PetHCLBody))
    (environ : List String) (r : Nat) (e : DecodeError)
    (h : (ReadConfig parsed environ r).2 = some e) :
    (ReadConfig parsed environ r).1 = [] := by
  cases parsed with
  | error m => rfl
  | ok blocks =>
    show (decodePets (createContext environ) r blocks).1 = []
    have h2 : (decodePets (createContext environ) r blocks).2 = some e := h
    cases hd : decodePets (createContext environ) r blocks with
    | mk pets o =>
      rw [hd] at h2
      cases o with
      | none => simp at h2
      | some e2 => exact decodePets_error_empty (createContext environ) r blocks pets e2 hd

/-- Witness for C2 at a concrete failing document. -/
theorem decode_error_returns_no_records_witness :
    (ReadConfig (.ok [⟨"Nemo", "fish", none⟩]) [] 0).2 = some (.unknownPetType "fish") ∧
    (ReadConfig (.ok [⟨"Nemo", "fish", none⟩]) [] 0).1 = [] :=
  ⟨by decide,
   decode_error_returns_no_records (.ok [⟨"Nemo", "fish", none⟩]) [] 0
     (.unknownPetType "fish") (by decide)⟩

/-- An in-bounds getD returns a member of the list. -/
theorem getD_mem {α : Type} : ∀ (l : List α) (i : Nat) (d : α), i < l.length → l.getD i d ∈ l
  | a :: l, 0, d, _ => by simp
  | a :: l, i + 1, d, h =>
    List.mem_cons_of_mem a (getD_mem l i d (by simpa using Nat.lt_of_succ_lt_succ h))

/-- C5: the random function, invoked on a non-empty candidate list, succeeds
and returns a member of that list, whatever the random draw. -/
theorem random_returns_member (r : Nat) (args : List String) (h : args ≠ []) :
    ∃ s, randomCall r args = .ok s ∧ s ∈ args := by
  have hlen : args.length ≠ 0 := fun hl => h (List.eq_nil_of_length_eq_zero hl)
  refine ⟨args.getD (r % args.length) "", ?_, ?_⟩
  · unfold randomCall randomImpl randIntn
    simp [hlen]
  · exact getD_mem args (r % args.length) "" (Nat.mod_lt r (Nat.pos_of_ne_zero hlen))

/-- Witness for C5 on the candidate list of the function.hcl test. -/
theorem random_returns_member_witness :
    ∃ s, randomCall 0 ["Pug", "Lab"] = .ok s ∧ s ∈ ["Pug", "Lab"] :=
  random_returns_member 0 ["Pug", "Lab"] (by decide)

/-- C6 counterexample: invoked with no candidates, the random function does
not fail with the arity error requiring at least one argument; the
implementation reaches rand.Intn with bound zero and its panic is what
surfaces. -/
theorem random_empty_no_arity_error :
    randomCall 0 [] = .error .panicIntn ∧
    randomCall 0 [] ≠ .error (.arityError 1) := by
  constructor
  · rfl
  · decide

/-- C6 (amended): invoked with an empty candidate sequence, the random call
passes the arity check (its signature requires no positional arguments and
takes string varargs) and fails with the recovered panic of rand.Intn on a
zero bound, for every random draw. -/
theorem random_empty_panics (r : Nat) : randomCall r [] = .error .panicIntn := rfl

/-- C8: a document with the single block labelled Ink, discriminator cat and
no sound attribute decodes to the single record Ink with the default cat
sound. -/
theorem ink_cat_default_sound :
    ReadConfig (.ok [⟨"Ink", "cat", some ⟨[]⟩⟩]) [] 0 =
      ([.cat ⟨"Ink", defaultCatSound⟩], none) := by decide

/-- C10: a block of a known variant whose characteristics block is entirely
absent decodes successfully, and every optional field of the record carries
the schema default, because the body decode is skipped on a nil block. -/
theorem absent_characteristics_defaults (ctx : EvalContext) (r : Nat) (nm : String) :
    decodePetBlock ctx r ⟨nm, "cat", none⟩ = .ok (.cat ⟨nm, defaultCatSound⟩) ∧
    decodePetBlock ctx r ⟨nm, "dog", none⟩ = .ok (.dog ⟨nm, defaultDogBreed⟩) :=
  ⟨rfl, rfl⟩

/-- A list is a leading segment of itself followed by anything. -/
theorem isPreOf_self_append : ∀ (n post : List Char), isPreOf n (n ++ post) = true
  | [], _ => rfl
  | a :: as, post => by simp [isPreOf, isPreOf_self_append as post]

/-- A leading segment is in particular a contiguous sublist. -/
theorem subListOf_of_isPre : ∀ (n hay : List Char), isPreOf n hay = true → subListOf n hay = true
  | n, [], hp => by
    cases n with
    | nil => rfl
    | cons a as => simp [isPreOf] at hp
  | n, c :: rest, hp => by
    show (isPreOf n (c :: rest) || subListOf n rest) = true
    simp [hp]

/-- A list occurs as a contiguous sublist of any surrounding concatenation. -/
theorem subListOf_append_mid : ∀ (pre n post : List Char), subListOf n (pre ++ (n ++ post)) = true
  | [], n, post => by
    rw [List.nil_append]
    exact subListOf_of_isPre n (n ++ post) (isPreOf_self_append n post)
  | c :: pre, n, post => by
    show (isPreOf n (c :: (pre ++ (n ++ post))) || subListOf n (pre ++ (n ++ post))) = true
    rw [subListOf_append_mid pre n post]
    simp

/-- A string contains itself inside any surrounding concatenation. -/
theorem strContains_append_mid (pre t post : String) :
    strContains t (pre ++ t ++ post) = true := by
  unfold strContains
  rw [String.data_append, String.data_append, List.append_assoc]
  exact subListOf_append_mid pre.data t.data post.data

/-- C3 counterexample: the unknown-variant failure for the block labelled
Nemo with discriminator fish carries a message naming the discriminator but
not the label, so the message does not name both as claimed. -/
theorem unknown_type_message_lacks_label :
    decodePets (createContext []) 0 [⟨"Nemo", "fish", none⟩] =
      ([], some (.unknownPetType "fish")) ∧
    strContains "Nemo" (errorMessage (.unknownPetType "fish")) = false := by decide

/-- C3 (amended): a block whose discriminator has no registered variant makes
the whole decode fail with the unknown-pet-type error, whose message names
the offending discriminator (the block label is not part of the message), and
no records are returned. -/
theorem unknown_type_fails_names_type (ctx : EvalContext) (r : Nat) (nm t : String)
    (chars : Option Body) (rest : List PetHCLBody)
    (h1 : t ≠ "cat") (h2 : t ≠ "dog") :
    decodePets ctx r (⟨nm, t, chars⟩ :: rest) = ([], some (.unknownPetType t)) ∧
    strContains t (errorMessage (.unknownPetType t)) = true := by
  constructor
  · have hp : decodePetBlock ctx r ⟨nm, t, chars⟩ = .error (.unknownPetType t) := by
      simp [decodePetBlock, h1, h2]
    simp [decodePets, hp]
  · show strContains t ("error in ReadConfig: unknown pet type `" ++ t ++ "`") = true
    exact strContains_append_mid "error in ReadConfig: unknown pet type `" t "`"

/-- Witness for C3 at the concrete unregistered discriminator fish. -/
theorem unknown_type_fails_names_type_witness :
    decodePets (createContext []) 0 [⟨"Nemo", "fish", none⟩] =
      ([], some (.unknownPetType "fish")) ∧
    strContains "fish" (errorMessage (.unknownPetType "fish")) = true :=
  unknown_type_fails_names_type (createContext []) 0 "Nemo" "fish" none []
    (by decide) (by decide)

/-- When every attribute of a body bears the declared field name, the
closed-schema check passes. -/
theorem checkNoUnknown_ok_of_all (f : String) (body : Body)
    (hall : body.attrs.all (fun a => a.1 == f) = true) :
    checkNoUnknown [f] body = .ok () := by
  unfold checkNoUnknown
  have hnone : body.attrs.find? (fun a => !([f].contains a.1)) = none := by
    apply List.find?_eq_none.mpr
    intro a ha
    have h1 := List.all_eq_true.mp hall a ha
    have h2 : a.1 = f := by simpa using h1
    simp [List.contains_cons, h2]
  rw [hnone]

/-- When some attribute of a body does not bear the declared field name, the
closed-schema check fails with an unknown-field error. -/
theorem checkNoUnknown_error_of_not_all (f : String) (body : Body)
    (h : body.attrs.all (fun a => a.1 == f) = false) :
    ∃ g, checkNoUnknown [f] body = .error (.unknownField g) := by
  unfold checkNoUnknown
  cases hf : body.attrs.find? (fun a => !([f].contains a.1)) with
  | some a => exact ⟨a.1, rfl⟩
  | none =>
    exfalso
    have hforall := List.find?_eq_none.mp hf
    have hall : body.attrs.all (fun a => a.1 == f) = true := by
      apply List.all_eq_true.mpr
      intro a ha
      have h2 := hforall a ha
      simp [List.contains_cons] at h2
      simp [h2]
    rw [hall] at h
    exact absurd h (by decide)

/-- C9: a known-variant block whose characteristics body contains an
attribute the variant schema does not declare (every attribute must be the
single declared optional field) fails the decode with an unknown-field error,
and no records are returned: schemas are closed. -/
theorem undeclared_attribute_fails (ctx : EvalContext) (r : Nat) (nm : String)
    (body : Body) (rest : List PetHCLBody) :
    (body.attrs.all (fun a => a.1 == "sound") = false →
      ∃ g, decodePets ctx r (⟨nm, "cat", some body⟩ :: rest) =
        ([], some (.unknownField g))) ∧
    (body.attrs.all (fun a => a.1 == "breed") = false →
      ∃ g, decodePets ctx r (⟨nm, "dog", some body⟩ :: rest) =
        ([], some (.unknownField g))) := by
  constructor
  · intro h
    obtain ⟨g, hg⟩ := checkNoUnknown_error_of_not_all "sound" body h
    have hb : decodeBodyOneField "sound" ctx r body "" = .error (.unknownField g) := by
      unfold decodeBodyOneField
      rw [hg]
    have hp : decodePetBlock ctx r ⟨nm, "cat", some body⟩ = .error (.unknownField g) := by
      simp [decodePetBlock, decodeCharacteristics, hb]
    exact ⟨g, by simp [decodePets, hp]⟩
  · intro h
    obtain ⟨g, hg⟩ := checkNoUnknown_error_of_not_all "breed" body h
    have hb : decodeBodyOneField "breed" ctx r body "" = .error (.unknownField g) := by
      unfold decodeBodyOneField
      rw [hg]
    have hp : decodePetBlock ctx r ⟨nm, "dog", some body⟩ = .error (.unknownField g) := by
      simp [decodePetBlock, decodeCharacteristics, hb]
    exact ⟨g, by simp [decodePets, hp]⟩

/-- Witness for C9: a breed attribute inside a cat block. -/
theorem undeclared_attribute_fails_witness :
    ∃ g, decodePets (createContext []) 0
      [⟨"Ink", "cat", some ⟨[("breed", .base (.lit "pug"))]⟩⟩] =
      ([], some (.unknownField g)) :=
  (undeclared_attribute_fails (createContext []) 0 "Ink"
    ⟨[("breed", .base (.lit "pug"))]⟩ []).1 (by decide)

/-- C4: for a known-variant block whose characteristics attributes all bear
the declared optional field name, the default is applied after expression
evaluation and exactly when the resolved value is the empty string: an
omitted attribute and an attribute that evaluates to the empty string both
produce the schema default (meow for cats, mutt for dogs), and a non-empty
resolved value is kept verbatim. -/
theorem optional_default_after_eval (ctx : EvalContext) (r : Nat) (nm : String) (body : Body) :
    (body.attrs.all (fun a => a.1 == "sound") = true →
      (∀ e v, lookupAttr body "sound" = some e → evalExpr ctx r e = .ok v →
        decodePetBlock ctx r ⟨nm, "cat", some body⟩ =
          .ok (.cat ⟨nm, if v = "" then defaultCatSound else v⟩)) ∧
      (lookupAttr body "sound" = none →
        decodePetBlock ctx r ⟨nm, "cat", some body⟩ = .ok (.cat ⟨nm, defaultCatSound⟩))) ∧
    (body.attrs.all (fun a => a.1 == "breed") = true →
      (∀ e v, lookupAttr body "breed" = some e → evalExpr ctx r e = .ok v →
        decodePetBlock ctx r ⟨nm, "dog", some body⟩ =
          .ok (.dog ⟨nm, if v = "" then defaultDogBreed else v⟩)) ∧
      (lookupAttr body "breed" = none →
        decodePetBlock ctx r ⟨nm, "dog", some body⟩ = .ok (.dog ⟨nm, defaultDogBreed⟩))) := by
  constructor
  · intro hall
    have hcheck := checkNoUnknown_ok_of_all "sound" body hall
    constructor
    · intro e v hl he
      have hb : decodeBodyOneField "sound" ctx r body "" = .ok v := by
        simp [decodeBodyOneField, hcheck, hl, he]
      simp [decodePetBlock, decodeCharacteristics, hb]
    · intro hl
      have hb : decodeBodyOneField "sound" ctx r body "" = .ok "" := by
        simp [decodeBodyOneField, hcheck, hl]
      simp [decodePetBlock, decodeCharacteristics, hb]
  · intro hall
    have hcheck := checkNoUnknown_ok_of_all "breed" body hall
    constructor
    · intro e v hl he
      have hb : decodeBodyOneField "breed" ctx r body "" = .ok v := by
        simp [decodeBodyOneField, hcheck, hl, he]
      simp [decodePetBlock, decodeCharacteristics, hb]
    · intro hl
      have hb : decodeBodyOneField "breed" ctx r body "" = .ok "" := by
        simp [decodeBodyOneField, hcheck, hl]
      simp [decodePetBlock, decodeCharacteristics, hb]

/-- Witness for C4: an explicit empty-string sound resolves to the default,
exercising the documented quirk. -/
theorem optional_default_after_eval_witness :
    decodePetBlock (createContext []) 0 ⟨"Ink", "cat", some ⟨[("sound", .base (.lit ""))]⟩⟩ =
      .ok (.cat ⟨"Ink", defaultCatSound⟩) := by
  have h := ((optional_default_after_eval (createContext []) 0 "Ink"
    ⟨[("sound", .base (.lit ""))]⟩).1 (by decide)).1 (.base (.lit "")) ""
    (by decide) (by decide)
  simpa using h

/-- A well-formed characteristics block decodes to some resolved value. -/
theorem decodeChars_ok_of_bodyOk (f : String) (ctx : EvalContext) (r : Nat)
    (chars : Option Body) (h : bodyOkB f ctx r chars = true) :
    ∃ v, decodeCharacteristics f ctx r chars "" = .ok v := by
  cases chars with
  | none => exact ⟨"", rfl⟩
  | some body =>
    unfold bodyOkB at h
    rw [Bool.and_eq_true] at h
    obtain ⟨hall, hattr⟩ := h
    have hcheck := checkNoUnknown_ok_of_all f body hall
    show ∃ v, decodeBodyOneField f ctx r body "" = .ok v
    cases hl : lookupAttr body f with
    | none => exact ⟨"", by simp [decodeBodyOneField, hcheck, hl]⟩
    | some e =>
      simp only [hl] at hattr
      cases he : evalExpr ctx r e with
      | error err => rw [he] at hattr; simp [isOkB] at hattr
      | ok v => exact ⟨v, by simp [decodeBodyOneField, hcheck, hl, he]⟩

/-- A well-formed block decodes to a record carrying its label and belonging
to the variant its discriminator selected. -/
theorem decodePetBlock_ok_of_wellFormed (ctx : EvalContext) (r : Nat) (p : PetHCLBody)
    (h : blockWellFormed ctx r p = true) :
    ∃ pet, decodePetBlock ctx r p = .ok pet ∧
      pet.petName = p.name ∧ pet.typeName = p.petType := by
  unfold blockWellFormed at h
  by_cases hc : p.petType = "cat"
  · rw [if_pos hc] at h
    obtain ⟨v, hv⟩ := decodeChars_ok_of_bodyOk "sound" ctx r p.characteristicsHCL h
    refine ⟨.cat ⟨p.name, if v = "" then defaultCatSound else v⟩, ?_, rfl, ?_⟩
    · unfold decodePetBlock
      rw [if_pos hc, hv]
    · simp [Pet.typeName, hc]
  · rw [if_neg hc] at h
    by_cases hd : p.petType = "dog"
    · rw [if_pos hd] at h
      obtain ⟨v, hv⟩ := decodeChars_ok_of_bodyOk "breed" ctx r p.characteristicsHCL h
      refine ⟨.dog ⟨p.name, if v = "" then defaultDogBreed else v⟩, ?_, rfl, ?_⟩
      · unfold decodePetBlock
        rw [if_neg hc, if_pos hd, hv]
      · simp [Pet.typeName, hd]
    · rw [if_neg hd] at h
      exact absurd h (by decide)

/-- C1 counterexample: a document whose single block carries the known
discriminator cat, a variant with no required fields, nevertheless fails to
decode, because the body holds an undeclared attribute; the decode returns no
records instead of a sequence of one. -/
theorem known_discriminator_can_fail :
    PetHCLBody.petType ⟨"Ink", "cat", some ⟨[("breed", .base (.lit "mutt"))]⟩⟩ = "cat" ∧
    decodePets (createContext []) 0
      [⟨"Ink", "cat", some ⟨[("breed", .base (.lit "mutt"))]⟩⟩] =
      ([], some (.unknownField "breed")) := by decide

/-- C1 (amended): for a document all of whose blocks carry a registered
discriminator and a well-formed characteristics block (only the declared
optional attribute, with an expression that evaluates), the decode succeeds,
returns exactly one record per block, and the records keep the document
order: the i-th record carries the i-th block's label and variant. -/
theorem decode_wellformed_preserves_order (ctx : EvalContext) (r : Nat) :
    ∀ blocks : List PetHCLBody, (∀ p ∈ blocks, blockWellFormed ctx r p = true) →
      ∃ pets : List Pet, decodePets ctx r blocks = (pets, none) ∧
        pets.length = blocks.length ∧
        ∀ i (h1 : i < pets.length) (h2 : i < blocks.length),
          (pets.get ⟨i, h1⟩).petName = (blocks.get ⟨i, h2⟩).name ∧
          (pets.get ⟨i, h1⟩).typeName = (blocks.get ⟨i, h2⟩).petType := by
  intro blocks
  induction blocks with
  | nil =>
    intro _
    exact ⟨[], rfl, rfl, fun i h1 h2 => absurd h1 (by simp)⟩
  | cons p rest ih =>
    intro h
    obtain ⟨pet, hpet, hname, htype⟩ :=
      decodePetBlock_ok_of_wellFormed ctx r p (h p (by simp))
    obtain ⟨pets, hpets, hlen, hidx⟩ := ih (fun q hq => h q (by simp [hq]))
    refine ⟨pet :: pets, ?_, by simp [hlen], ?_⟩
    · unfold decodePets
      rw [hpet, hpets]
    · intro i h1 h2
      cases i with
      | zero => exact ⟨hname, htype⟩
      | succ j => exact hidx j (Nat.lt_of_succ_lt_succ h1) (Nat.lt_of_succ_lt_succ h2)

/-- Witness for C1 at a concrete well-formed document. -/
theorem decode_wellformed_preserves_order_witness :
    ∃ pets : List Pet,
      decodePets (createContext []) 0
        [⟨"Swinney", "dog", some ⟨[("breed", .base (.lit "Dachshund"))]⟩⟩] = (pets, none) := by
  obtain ⟨pets, h1, h2, h3⟩ := decode_wellformed_preserves_order (createContext []) 0
    [⟨"Swinney", "dog", some ⟨[("breed", .base (.lit "Dachshund"))]⟩⟩] (by decide)
  exact ⟨pets, h1⟩

/-- Association lookup distributes over append, first list first. -/
theorem lookup_append_first (k : String) (l1 l2 : List (String × String)) :
    List.lookup k (l1 ++ l2) =
      match List.lookup k l1 with
      | some v => some v
      | none => List.lookup k l2 := by
  induction l1 with
  | nil => rfl
  | cons a l1 ih =>
    obtain ⟨a1, a2⟩ := a
    rw [List.cons_append]
    cases hab : (k == a1) with
    | true => simp [List.lookup_cons, hab]
    | false => simp [List.lookup_cons, hab, ih]

/-- Lookup of a key survives filtering a different key away. -/
theorem lookup_filter_ne (k k0 : String) (m : List (String × String)) (h : k ≠ k0) :
    List.lookup k (m.filter (fun p => p.1 != k0)) = List.lookup k m := by
  induction m with
  | nil => rfl
  | cons a m ih =>
    obtain ⟨a1, a2⟩ := a
    by_cases h1 : a1 = k0
    · subst h1
      have hk : (k == a1) = false := by simp [h]
      simp [List.filter_cons, List.lookup_cons, hk, ih]
    · have hp : (a1 != k0) = true := by simp [h1]
      cases hk : (k == a1) with
      | true => simp [List.filter_cons, hp, List.lookup_cons, hk]
      | false => simp [List.filter_cons, hp, List.lookup_cons, hk, ih]

/-- Lookup of the filtered-away key yields nothing. -/
theorem lookup_filter_self (k0 : String) (m : List (String × String)) :
    List.lookup k0 (m.filter (fun p => p.1 != k0)) = none := by
  induction m with
  | nil => rfl
  | cons a m ih =>
    obtain ⟨a1, a2⟩ := a
    by_cases h1 : a1 = k0
    · subst h1
      simp [List.filter_cons, ih]
    · have hp : (a1 != k0) = true := by simp [h1]
      have hk : (k0 == a1) = false := by simp [Ne.symm h1]
      simp [List.filter_cons, hp, List.lookup_cons, hk, ih]

/-- Lookup after a Go map assignment: the assigned key reads the new value,
any other key is unaffected. -/
theorem lookup_mapSet (m : List (String × String)) (k0 v0 k : String) :
    List.lookup k (mapSet m k0 v0) = if k = k0 then some v0 else List.lookup k m := by
  unfold mapSet
  rw [lookup_append_first]
  by_cases h : k = k0
  · subst h
    rw [lookup_filter_self]
    simp [List.lookup_cons]
  · rw [lookup_filter_ne k k0 m h]
    have hk : (k == k0) = false := by simp [h]
    cases hm : List.lookup k m with
    | none => simp [List.lookup_cons, hk, h]
    | some v => simp [h]

/-- The scan step acts on the accumulator exactly as the entry's
contribution dictates. -/
theorem envStep_contrib (acc : List (String × String)) (e : String) :
    envStep acc e =
      match contribOf e with
      | none => acc
      | some kv => mapSet acc kv.1 kv.2 := by
  unfold envStep contribOf
  cases hs : splitEqAt e.data with
  | none => simp [hs]
  | some kv =>
    obtain ⟨k, v⟩ := kv
    by_cases hp : goHasPre envVarPref (String.mk k) = true
    · simp [hs, hp]
    · simp [hs, hp]

/-- Lookup through the whole environment scan: the last matching contribution
wins, otherwise the accumulator answers. -/
theorem foldl_envStep_lookup (k : String) :
    ∀ (environ : List String) (acc : List (String × String)),
      List.lookup k (environ.foldl envStep acc) =
        match lastContribution k (environ.filterMap contribOf) with
        | some v => some v
        | none => List.lookup k acc
  | [], acc => by simp [lastContribution]
  | e :: environ, acc => by
    rw [List.foldl_cons, foldl_envStep_lookup k environ (envStep acc e)]
    cases hc : contribOf e with
    | none =>
      rw [envStep_contrib acc e]
      simp [hc, List.filterMap_cons]
    | some kv =>
      obtain ⟨k0, v0⟩ := kv
      rw [envStep_contrib acc e]
      simp only [hc, List.filterMap_cons]
      rw [lookup_mapSet]
      show _ = match lastContribution k ((k0, v0) :: List.filterMap contribOf environ) with
        | some v => some v
        | none => List.lookup k acc
      cases hm : lastContribution k (List.filterMap contribOf environ) with
      | some v => simp [lastContribution, hm]
      | none =>
        by_cases hk : k = k0
        · subst hk
          simp [lastContribution, hm]
        · have hkb : (k0 == k) = false := by simp [Ne.symm hk]
          simp [lastContribution, hm, hk, hkb]

/-- No contributions leave the accumulator untouched. -/
theorem foldl_envStep_no_contrib :
    ∀ (environ : List String) (acc : List (String × String)),
      environ.filterMap contribOf = [] → environ.foldl envStep acc = acc
  | [], acc, _ => rfl
  | e :: environ, acc, h => by
    rw [List.filterMap_cons] at h
    cases hc : contribOf e with
    | none =>
      rw [hc] at h
      rw [List.foldl_cons, envStep_contrib acc e]
      simp only [hc]
      exact foldl_envStep_no_contrib environ acc h
    | some kv => rw [hc] at h; simp at h

/-- C7: context construction is total (never fails); the variables are
exactly the env namespace; a name of the nested mapping resolves to the
value of the last snapshot entry whose key carries the PS_ marker and strips
to that name (last write wins on collisions), entries without the marker
contribute nothing, and a snapshot with no matching entries yields an empty
nested mapping rather than an error. -/
theorem createContext_env_characterisation (environ : List String) (k : String) :
    (createContext environ).Variables = [(environmentKey, envVarsOf environ)] ∧
    List.lookup k (envVarsOf environ) = lastContribution k (environ.filterMap contribOf) ∧
    (environ.filterMap contribOf = [] → envVarsOf environ = []) := by
  refine ⟨rfl, ?_, ?_⟩
  · unfold envVarsOf
    rw [foldl_envStep_lookup k environ []]
    cases lastContribution k (environ.filterMap contribOf) <;> rfl
  · intro h
    exact foldl_envStep_no_contrib environ [] h

/-- Witness for C7 on a snapshot with one marked, one unmarked and one
colliding marked entry. -/
theorem createContext_env_characterisation_witness :
    List.lookup "CAT_SOUND"
      (envVarsOf ["PS_CAT_SOUND=nyan", "HOME=/root", "PS_CAT_SOUND=purr"]) =
      lastContribution "CAT_SOUND"
        ((["PS_CAT_SOUND=nyan", "HOME=/root", "PS_CAT_SOUND=purr"] : List String).filterMap contribOf) ∧
    (([] : List String).filterMap contribOf = [] → envVarsOf [] = []) :=
  ⟨(createContext_env_characterisation
      ["PS_CAT_SOUND=nyan", "HOME=/root", "PS_CAT_SOUND=purr"] "CAT_SOUND").2.1,
   (createContext_env_characterisation [] "CAT_SOUND").2.2⟩

end PetSounds
